import Mathlib

set_option autoImplicit false

namespace Nimbus

/-!
Shallow embedding of the monash-nimbus-reports Tauri backend
(src-tauri/src/commands/{credentials,http,version}.rs and src-tauri/src/types.rs).
Strings are modelled as Lean `String` (lists of characters); the byte-level
UTF-8 representation is irrelevant to the string operations used by the code
(all patterns involved are ASCII and UTF-8 is self-synchronizing).
-/

/-! ## String helpers modelling Rust std operations -/

/-- Model of Rust `str::ends_with` (suffix test, character-wise). -/
def strEndsWith (s suffix : String) : Bool :=
  suffix.data.isSuffixOf s.data

/-- Model of Rust `str::trim_end_matches('/')`: remove all trailing `/`. -/
def rstripSlashes (s : String) : String :=
  ⟨(s.data.reverse.dropWhile (fun x => x = '/')).reverse⟩

/-- Model of Rust `str::trim_start_matches('v')`: remove all leading `v`. -/
def stripLeadingV (s : String) : String :=
  ⟨s.data.dropWhile (fun x => x = 'v')⟩

/-- Worker for `stringReplace`: replace each non-overlapping occurrence of
`pat` (scanning left to right) by `repl`.  The fuel argument makes the
recursion structural; each step consumes at least one character, so fuel
equal to the input length is enough. -/
def replaceAllGo (pat repl : List Char) : Nat → List Char → List Char
  | 0, l => l
  | _, [] => []
  | fuel + 1, c :: rest =>
    if !pat.isEmpty && pat.isPrefixOf (c :: rest) then
      repl ++ replaceAllGo pat repl fuel (List.drop (pat.length - 1) rest)
    else
      c :: replaceAllGo pat repl fuel rest

/-- Model of Rust `String::replace(pat, repl)` for a non-empty pattern:
every non-overlapping occurrence of `pat` in `s`, found scanning left to
right, is replaced by `repl`.  (For the empty pattern this model is the
identity; the code only ever replaces the literal "/ODataApi".) -/
def stringReplace (s pat repl : String) : String :=
  ⟨replaceAllGo pat.data repl.data s.data.length s.data⟩

/-- Worker for `splitOnChar`: `acc` holds the characters of the current
piece in reverse. -/
def splitOnCharGo (sep : Char) (acc : List Char) : List Char → List (List Char)
  | [] => [acc.reverse]
  | c :: rest =>
    if c = sep then acc.reverse :: splitOnCharGo sep [] rest
    else splitOnCharGo sep (c :: acc) rest

/-- Model of Rust `str::split(sep)` for a character separator: the empty
string yields `[""]`, adjacent separators yield empty pieces. -/
def splitOnChar (sep : Char) (s : String) : List String :=
  (splitOnCharGo sep [] s.data).map String.mk

/-- Decimal value of a list of ASCII digit characters (most significant
first), as folded up by a decimal parser. -/
def digitsVal (l : List Char) : Nat :=
  l.foldl (fun a c => a * 10 + (c.toNat - 48)) 0

/-- Model of Rust `str::parse::<u32>()`: optional leading `+`, then one or
more ASCII digits, value at most `2^32 - 1`; anything else is `None`. -/
def parseU32 (s : String) : Option Nat :=
  let l := match s.data with
    | c :: rest => if c = '+' then rest else c :: rest
    | [] => []
  if l.isEmpty then none
  else if l.all Char.isDigit then
    let v := digitsVal l
    if v < 2 ^ 32 then some v else none
  else none

/-! ## URL resolution for execute_rest_get / execute_rest_post
(src-tauri/src/commands/http.rs, lines 214-226 and 254-266; both
functions contain the identical `full_url` case analysis). -/

/-- The error returned when no URL argument is usable. -/
def noUrlError : String :=
  "No URL provided. Pass 'url' or 'baseUrl' (optionally with 'endpoint')"

/-- The `full_url` case analysis shared by `execute_rest_get` and
`execute_rest_post`. -/
def resolve_full_url (url base_url endpoint : Option String) : Except String String :=
  match url with
  | some u => .ok u
  | none =>
    match base_url with
    | some base =>
      match endpoint with
      | some ep => .ok (rstripSlashes base ++ ep)
      | none => .ok base
    | none =>
      match endpoint with
      | some ep => .ok ep
      | none => .error noUrlError

/-! ## Version comparison (src-tauri/src/commands/version.rs) -/

/-- The component list built by the `parse` closure inside
`is_newer_version`: split on `.`, keep only the pieces that parse as `u32`
(non-numeric pieces are dropped by `filter_map`). -/
def versionComponents (v : String) : List Nat :=
  (splitOnChar '.' v).filterMap parseU32

/-- The `i`-th component as the comparison loop reads it:
`parts.get(i).copied().unwrap_or(0)`. -/
def comp3 (v : String) (i : Nat) : Nat :=
  (versionComponents v).getD i 0

/-- Model of `is_newer_version` (version.rs lines 98-119): the
`for i in 0..3` loop unrolled, each iteration reading the components via
`comp3` and returning early on the first strict difference. -/
def is_newer_version (current latest : String) : Bool :=
  if comp3 latest 0 > comp3 current 0 then true
  else if comp3 latest 0 < comp3 current 0 then false
  else if comp3 latest 1 > comp3 current 1 then true
  else if comp3 latest 1 < comp3 current 1 then false
  else if comp3 latest 2 > comp3 current 2 then true
  else if comp3 latest 2 < comp3 current 2 then false
  else false

/-- Comparison semantics as the claim words it: each of the three
components parsed independently from the `i`-th piece of the split,
a non-numeric or missing piece defaulting to 0 (instead of being dropped). -/
def claimComp (v : String) (i : Nat) : Nat :=
  (parseU32 ((splitOnChar '.' v).getD i "")).getD 0

/-- The claim's version comparison, built from `claimComp`: newer iff at
the first index in 0..3 where the components differ the candidate's
component is greater. -/
def is_newer_version_claim (current latest : String) : Bool :=
  if claimComp latest 0 > claimComp current 0 then true
  else if claimComp latest 0 < claimComp current 0 then false
  else if claimComp latest 1 > claimComp current 1 then true
  else if claimComp latest 1 < claimComp current 1 then false
  else if claimComp latest 2 > claimComp current 2 then true
  else if claimComp latest 2 < claimComp current 2 then false
  else false

/-! ## OData base-URL normalization
(execute_odata_query, http.rs lines 119-128). -/

/-- The `odata_base` computation of `execute_odata_query`. -/
def odata_base (base_url : String) : String :=
  if strEndsWith base_url "/CoreApi/OData" || strEndsWith base_url "/CoreApi/OData/" then
    rstripSlashes base_url
  else if strEndsWith base_url "/ODataApi" || strEndsWith base_url "/ODataApi/" then
    rstripSlashes (stringReplace base_url "/ODataApi" "/CoreApi/OData")
  else if strEndsWith base_url "/odata" || strEndsWith base_url "/odata/" then
    rstripSlashes base_url
  else
    rstripSlashes base_url ++ "/CoreApi/OData"

/-- Drop a given suffix from a string (used only to state the claim's
wording of the legacy rewrite). -/
def dropEnd (s : String) (n : Nat) : String :=
  ⟨s.data.take (s.data.length - n)⟩

/-- The claim's wording of the normalization: only the legacy *suffix*
"/ODataApi" (or "/ODataApi/") is rewritten to "/CoreApi/OData"; the rest
of the URL is untouched. -/
def odata_base_claim (base_url : String) : String :=
  if strEndsWith base_url "/CoreApi/OData" || strEndsWith base_url "/CoreApi/OData/" then
    rstripSlashes base_url
  else if strEndsWith base_url "/ODataApi" then
    dropEnd base_url 9 ++ "/CoreApi/OData"
  else if strEndsWith base_url "/ODataApi/" then
    dropEnd base_url 10 ++ "/CoreApi/OData"
  else if strEndsWith base_url "/odata" || strEndsWith base_url "/odata/" then
    rstripSlashes base_url
  else
    rstripSlashes base_url ++ "/CoreApi/OData"

/-! ## OData query-parameter assembly
(execute_odata_query, http.rs lines 130-172). -/

/-- The `query_params` vector of `execute_odata_query`: the sequence of
conditional pushes, in program order. -/
def odata_params (top skip : Option Int) (filter select expand orderby : Option String)
    (count : Option Bool) : List String :=
  (match top with | some t => ["$top=" ++ toString t] | none => []) ++
  (match skip with | some sk => ["$skip=" ++ toString sk] | none => []) ++
  (match filter with
   | some f => if f.isEmpty then [] else ["$filter=" ++ f]
   | none => []) ++
  (match select with
   | some s => if s.isEmpty then [] else ["$select=" ++ s]
   | none => []) ++
  (match expand with
   | some e => if e.isEmpty then [] else ["$expand=" ++ e]
   | none => []) ++
  (match orderby with
   | some ob => if ob.isEmpty then [] else ["$orderby=" ++ ob]
   | none => []) ++
  (if count.getD false then ["$count=true"] else [])

/-- The full request URL built by `execute_odata_query` before the request
is sent: normalized base, entity path segment, then the joined query
parameters when any are present. -/
def odata_url (base_url entity : String) (top skip : Option Int)
    (filter select expand orderby : Option String) (count : Option Bool) : String :=
  let url := odata_base base_url ++ "/" ++ entity
  let qp := odata_params top skip filter select expand orderby count
  if qp.isEmpty then url else url ++ "?" ++ String.intercalate "&" qp

/-! ## Header construction (build_headers, http.rs lines 20-75)

`reqwest::header::HeaderMap` is modelled as an association list with
case-normalized (lowercase) names; `insert` replaces the value of an
existing name and otherwise appends.  `HeaderName::from_bytes` accepts
exactly the HTTP token characters (mapping uppercase letters to
lowercase); `HeaderValue::from_str` accepts bytes that are 9 (tab) or at
least 32 and not 127. -/

/-- Valid characters of an HTTP header name (the `HEADER_CHARS` table of
the http crate): letters, digits, and `!#$%&'*+-.^_|~` and backquote. -/
def validHeaderNameChar (c : Char) : Bool :=
  (97 ≤ c.toNat && c.toNat ≤ 122) || (65 ≤ c.toNat && c.toNat ≤ 90) ||
  (48 ≤ c.toNat && c.toNat ≤ 57) ||
  c == '!' || c == '#' || c == '$' || c == '%' || c == '&' || c == Char.ofNat 39 ||
  c == '*' || c == '+' || c == '-' || c == '.' || c == '^' || c == '_' ||
  c == Char.ofNat 96 || c == '|' || c == '~'

/-- Validity of a header name for `HeaderName::from_bytes`. -/
def validHeaderName (s : String) : Bool :=
  !s.isEmpty && s.data.all validHeaderNameChar

/-- Validity of one character of a header value for
`HeaderValue::from_str` (byte-wise: tab, or at least 32 and not 127;
non-ASCII characters encode to bytes that are all at least 32). -/
def validHeaderValueChar (c : Char) : Bool :=
  (32 ≤ c.toNat && c.toNat ≠ 127) || c.toNat == 9

/-- Validity of a header value for `HeaderValue::from_str`. -/
def validHeaderValue (s : String) : Bool :=
  s.data.all validHeaderValueChar

/-- Case-normalization performed by header-name parsing: ASCII uppercase
letters become lowercase. -/
def lowerName (s : String) : String :=
  ⟨s.data.map Char.toLower⟩

/-- The header map model. -/
def HeaderMap : Type := List (String × String)

/-- Model of `HeaderMap::insert` for a single-valued name: replace the
value of an existing entry, otherwise append the pair. -/
def headerInsert (m : HeaderMap) (k v : String) : HeaderMap :=
  match m with
  | [] => [(k, v)]
  | kv :: rest =>
    if kv.1 == k then (k, v) :: rest
    else kv :: headerInsert rest k v

/-- First value stored under a name. -/
def lookupHeader (m : HeaderMap) (k : String) : Option String :=
  match m with
  | [] => none
  | kv :: rest => if kv.1 == k then some kv.2 else lookupHeader rest k

/-- The custom-header loop of `build_headers`: validate and insert each
caller-supplied pair, failing on the first invalid name or value. -/
def insertCustom (m : HeaderMap) : List (String × String) → Except String HeaderMap
  | [] => .ok m
  | (k, v) :: rest =>
    if validHeaderName k then
      if validHeaderValue v then
        insertCustom (headerInsert m (lowerName k) v) rest
      else .error ("Invalid header value for '" ++ k ++ "'")
    else .error ("Invalid header key '" ++ k ++ "'")

/-- Model of `build_headers` (http.rs lines 20-75).  The `Accept`,
`Content-Type` and `UserID` values always parse (they are literals or
decimal numbers), so those `map_err` arms cannot fire; the bearer and
token values are validated, as are all custom pairs. -/
def build_headers (custom : Option (List (String × String))) (user_id : Option Int)
    (auth_token : Option String) : Except String HeaderMap :=
  let headers : HeaderMap := []
  let headers := headerInsert headers "accept" "application/json"
  let headers := headerInsert headers "content-type" "application/json"
  let headers := match user_id with
    | some uid => headerInsert headers "userid" (toString uid)
    | none => headers
  match auth_token with
  | some tok =>
    if validHeaderValue ("Bearer " ++ tok) then
      if validHeaderValue tok then
        let headers := headerInsert headers "authorization" ("Bearer " ++ tok)
        let headers := headerInsert headers "authenticationtoken" tok
        match custom with
        | some cs => insertCustom headers cs
        | none => .ok headers
      else .error "Invalid AuthenticationToken header"
    else .error "Invalid authorization header"
  | none =>
    match custom with
    | some cs => insertCustom headers cs
    | none => .ok headers

/-! ## Data model (src-tauri/src/types.rs) and response handling -/

/-- The `HttpResponse` record of types.rs (header keys unique, values as
received; only UTF-8-decodable header values are modelled, since
`HeaderValue::to_str` failures drop a header from the map). -/
structure HttpResponse where
  status : Nat
  body : String
  headers : List (String × String)
deriving DecidableEq, Repr

/-- A completed HTTP exchange as seen by the response-processing code:
status, decodable headers, and the result of reading the body text (the
read itself can fail). -/
structure RawResponse where
  status : Nat
  headers : List (String × String)
  bodyResult : Except String String

/-- Model of `reqwest::StatusCode::is_success`: 200..=299. -/
def isSuccessStatus (s : Nat) : Bool :=
  200 ≤ s && s < 300

/-- The body text when it could be read, `""` otherwise (models
`response.text().await.unwrap_or_default()`). -/
def bodyOrEmpty (r : RawResponse) : String :=
  match r.bodyResult with
  | .ok b => b
  | .error _ => ""

/-- Model of `response_to_http_response` (http.rs lines 77-96): the
status is never inspected; the only failure is a body-read failure. -/
def response_to_http_response (r : RawResponse) : Except String HttpResponse :=
  match r.bodyResult with
  | .error e => .error ("Failed to read response body: " ++ e)
  | .ok b => .ok ⟨r.status, b, r.headers⟩

/-- The response-processing tail of `execute_odata_query` (http.rs lines
186-198), parametric in the JSON parser (`serde_json::from_str`, an
external crate, modelled as a fallible parse function into an arbitrary
JSON document type). -/
def odata_handle_response {α : Type} (parseJson : String → Except String α)
    (r : RawResponse) : Except String α :=
  if !isSuccessStatus r.status then
    .error ("OData query failed with status " ++ toString r.status ++ ": " ++ bodyOrEmpty r)
  else
    match r.bodyResult with
    | .error e => .error ("Failed to read response body: " ++ e)
    | .ok b =>
      match parseJson b with
      | .ok v => .ok v
      | .error e => .error ("Failed to parse OData response as JSON: " ++ e)

/-! ## Version checker (src-tauri/src/commands/version.rs) -/

/-- The `VersionInfo` record of version.rs. -/
structure VersionInfo where
  current_version : String
  latest_version : Option String
  update_available : Bool
  release_url : Option String
  release_notes : Option String
deriving DecidableEq, Repr

/-- The `GitHubRelease` record of version.rs (the fields deserialized
from the release-metadata API). -/
structure GitHubRelease where
  tag_name : String
  html_url : String
  body : Option String
deriving DecidableEq, Repr

/-- The response-processing tail of `check_for_updates` (version.rs lines
58-95), parametric in the release parser (`response.json::<GitHubRelease>()`:
body read and deserialization, whose failures merge into one error). -/
def check_for_updates_handle (current : String)
    (parseRelease : String → Except String GitHubRelease)
    (r : RawResponse) : Except String VersionInfo :=
  if r.status = 404 then
    .ok ⟨current, none, false, none, none⟩
  else if !isSuccessStatus r.status then
    .error ("GitHub API returned status " ++ toString r.status ++ ": " ++ bodyOrEmpty r)
  else
    match (match r.bodyResult with
           | .error e => Except.error e
           | .ok b => parseRelease b) with
    | .error e => .error ("Failed to parse release info: " ++ e)
    | .ok rel =>
      let latest := stripLeadingV rel.tag_name
      .ok ⟨current, some latest, is_newer_version current latest,
           some rel.html_url, rel.body⟩

/-! ## JSON (de)serialization model

Models `serde_json::to_string` / `serde_json::from_str` (an external
crate) for the three derived record types of types.rs.  The serializer
emits the fields in declaration order, skipping `None` optionals
(`skip_serializing_if`), escaping `"`, `\` and control characters.  The
parser below reads back exactly the grammar the serializer emits (strings
with the standard JSON escapes, decimal integers, objects). -/

/-- Hexadecimal value of a character (both cases accepted). -/
def hexVal (c : Char) : Option Nat :=
  if 48 ≤ c.toNat && c.toNat ≤ 57 then some (c.toNat - 48)
  else if 97 ≤ c.toNat && c.toNat ≤ 102 then some (c.toNat - 87)
  else if 65 ≤ c.toNat && c.toNat ≤ 70 then some (c.toNat - 55)
  else none

/-- JSON string escaping of one character, as `serde_json` emits it:
quote and backslash get a backslash escape, control characters below 32
get a named escape or a `\u00XX` escape, everything else stands for
itself. -/
def escapeChar (c : Char) : List Char :=
  if c = '"' then ['\\', '"']
  else if c = '\\' then ['\\', '\\']
  else if 32 ≤ c.toNat then [c]
  else if c = Char.ofNat 8 then ['\\', 'b']
  else if c = '\t' then ['\\', 't']
  else if c = '\n' then ['\\', 'n']
  else if c = Char.ofNat 12 then ['\\', 'f']
  else if c = '\r' then ['\\', 'r']
  else ['\\', 'u', '0', '0', Nat.digitChar (c.toNat / 16), Nat.digitChar (c.toNat % 16)]

/-- JSON string escaping of a character list. -/
def escapeList : List Char → List Char
  | [] => []
  | c :: cs => escapeChar c ++ escapeList cs

/-- Decoding of a single-character escape code. -/
def unescapeCode (e : Char) : Option Char :=
  if e = '"' then some '"'
  else if e = '\\' then some '\\'
  else if e = '/' then some '/'
  else if e = 'b' then some (Char.ofNat 8)
  else if e = 'f' then some (Char.ofNat 12)
  else if e = 'n' then some '\n'
  else if e = 'r' then some '\r'
  else if e = 't' then some '\t'
  else none

/-- Read the remainder of a JSON string up to its closing quote, decoding
escapes; returns the decoded content and the input following the quote.
The fuel makes the recursion structural: every decoded character consumes
one unit and at least one input character, so fuel equal to the input
length is always enough. -/
def unescape : Nat → List Char → Option (List Char × List Char)
  | 0, _ => none
  | _, [] => none
  | fuel + 1, c :: rest =>
    if c = '"' then some ([], rest)
    else if c = '\\' then
      match rest with
      | [] => none
      | e :: r =>
        if e = 'u' then
          match r with
          | h1 :: h2 :: h3 :: h4 :: r2 =>
            match hexVal h1, hexVal h2, hexVal h3, hexVal h4 with
            | some a, some b, some x, some d =>
              (fun p => (Char.ofNat (((a * 16 + b) * 16 + x) * 16 + d) :: p.1, p.2)) <$>
                unescape fuel r2
            | _, _, _, _ => none
          | _ => none
        else
          match unescapeCode e with
          | some d => (fun p => (d :: p.1, p.2)) <$> unescape fuel r
          | none => none
    else (fun p => (c :: p.1, p.2)) <$> unescape fuel rest

/-- Decimal digit expansion of a natural number, most significant digit
first; the fuel makes the recursion structural and any fuel at least `n`
is enough. -/
def natCharsGo : Nat → Nat → List Char
  | 0, _ => []
  | _, 0 => []
  | fuel + 1, n => natCharsGo fuel (n / 10) ++ [Nat.digitChar (n % 10)]

/-- Decimal rendering of a natural number (Rust `Display` for unsigned). -/
def natChars (n : Nat) : List Char :=
  if n = 0 then ['0'] else natCharsGo (n + 1) n

/-- Decimal rendering of an integer (Rust `Display` for `i32`). -/
def intChars (i : Int) : List Char :=
  if i < 0 then '-' :: natChars i.natAbs else natChars i.natAbs

/-- Read a nonempty run of decimal digits. -/
def parseNatVal (l : List Char) : Option (Nat × List Char) :=
  let ds := l.takeWhile Char.isDigit
  if ds.isEmpty then none else some (digitsVal ds, l.dropWhile Char.isDigit)

/-- Read a decimal integer with optional leading minus sign. -/
def parseIntVal : List Char → Option (Int × List Char)
  | [] => none
  | c :: rest =>
    if c = '-' then (fun p => (-(p.1 : Int), p.2)) <$> parseNatVal rest
    else (fun p => ((p.1 : Int), p.2)) <$> parseNatVal (c :: rest)

/-- JSON values occurring in the three record types: strings and
integers. -/
inductive JVal where
  | str (s : String)
  | int (i : Int)
deriving DecidableEq, Repr

/-- Render a JSON value. -/
def renderVal : JVal → List Char
  | .str s => '"' :: escapeList s.data ++ ['"']
  | .int i => intChars i

/-- Render one `"name":value` pair. -/
def renderField (f : String × JVal) : List Char :=
  '"' :: escapeList f.1.data ++ '"' :: ':' :: renderVal f.2

/-- Render a comma-separated field list. -/
def renderFieldsList : List (String × JVal) → List Char
  | [] => []
  | [f] => renderField f
  | f :: g :: fs => renderField f ++ ',' :: renderFieldsList (g :: fs)

/-- Render a JSON object. -/
def renderObj (fs : List (String × JVal)) : String :=
  ⟨'{' :: renderFieldsList fs ++ ['}']⟩

/-- Parse a JSON value (string or integer). -/
def parseVal : List Char → Option (JVal × List Char)
  | [] => none
  | c :: rest =>
    if c = '"' then (fun p => (JVal.str ⟨p.1⟩, p.2)) <$> unescape rest.length rest
    else (fun p => (JVal.int p.1, p.2)) <$> parseIntVal (c :: rest)

/-- Parse one `"name":value` pair. -/
def parseField (l : List Char) : Option ((String × JVal) × List Char) :=
  match l with
  | [] => none
  | c :: rest =>
    if c = '"' then
      match unescape rest.length rest with
      | none => none
      | some (name, r1) =>
        match r1 with
        | ':' :: r2 => (fun p => ((⟨name⟩, p.1), p.2)) <$> parseVal r2
        | _ => none
    else none

/-- Parse a nonempty comma-separated field list followed by `}`; the fuel
bounds the number of fields and the input length is always enough. -/
def parseFieldsGo : Nat → List Char → Option (List (String × JVal) × List Char)
  | 0, _ => none
  | fuel + 1, l =>
    match parseField l with
    | none => none
    | some (f, r) =>
      match r with
      | ',' :: r2 =>
        match parseFieldsGo fuel r2 with
        | some (fs, r3) => some (f :: fs, r3)
        | none => none
      | '}' :: r2 => some ([f], r2)
      | _ => none

/-- Parse a whole JSON object with at least one field, requiring the
input to be fully consumed. -/
def parseObj (s : String) : Option (List (String × JVal)) :=
  match s.data with
  | '{' :: rest =>
    match parseFieldsGo rest.length rest with
    | some (fs, []) => some fs
    | _ => none
  | _ => none

/-! ## Credential records (src-tauri/src/types.rs) -/

/-- The `Credentials` record: session credentials with mode-dependent
optional fields; `i32` is modelled as `Int`. -/
structure Credentials where
  base_url : String
  auth_mode : String
  user_id : Option Int
  auth_token : Option String
  app_token : Option String
  username : Option String
deriving DecidableEq, Repr

/-- The `LoginCredentials` record. -/
structure LoginCredentials where
  username : String
  password : String
deriving DecidableEq, Repr

/-- The `AppTokenCredentials` record. -/
structure AppTokenCredentials where
  app_token : String
  username : String
deriving DecidableEq, Repr

/-- The field list `serde_json::to_string` emits for `Credentials`:
declaration order, `None` optionals skipped (`skip_serializing_if`). -/
def credFields (c : Credentials) : List (String × JVal) :=
  [("base_url", JVal.str c.base_url), ("auth_mode", JVal.str c.auth_mode)] ++
  (match c.user_id with | some i => [("user_id", JVal.int i)] | none => []) ++
  (match c.auth_token with | some t => [("auth_token", JVal.str t)] | none => []) ++
  (match c.app_token with | some t => [("app_token", JVal.str t)] | none => []) ++
  (match c.username with | some u => [("username", JVal.str u)] | none => [])

/-- Serialization of `Credentials`. -/
def serializeCredentials (c : Credentials) : String :=
  renderObj (credFields c)

/-- Take a leading optional integer field of the given name. -/
def takeOptIntField (name : String) :
    List (String × JVal) → Option Int × List (String × JVal)
  | (n, JVal.int i) :: rest =>
    if n = name then (some i, rest) else (none, (n, JVal.int i) :: rest)
  | fs => (none, fs)

/-- Take a leading optional string field of the given name. -/
def takeOptStrField (name : String) :
    List (String × JVal) → Option String × List (String × JVal)
  | (n, JVal.str s) :: rest =>
    if n = name then (some s, rest) else (none, (n, JVal.str s) :: rest)
  | fs => (none, fs)

/-- Rebuild a `Credentials` record from a parsed field list (the shape
the serializer emits: both mandatory strings, then the present optionals
in declaration order, nothing else). -/
def buildCredentials : List (String × JVal) → Option Credentials
  | ("base_url", JVal.str b) :: ("auth_mode", JVal.str m) :: rest =>
    let p1 := takeOptIntField "user_id" rest
    let p2 := takeOptStrField "auth_token" p1.2
    let p3 := takeOptStrField "app_token" p2.2
    let p4 := takeOptStrField "username" p3.2
    if p4.2.isEmpty then some ⟨b, m, p1.1, p2.1, p3.1, p4.1⟩ else none
  | _ => none

/-- Deserialization of `Credentials`. -/
def deserializeCredentials (s : String) : Option Credentials :=
  (parseObj s).bind buildCredentials

/-- The field list for `LoginCredentials`. -/
def loginFields (c : LoginCredentials) : List (String × JVal) :=
  [("username", JVal.str c.username), ("password", JVal.str c.password)]

/-- Serialization of `LoginCredentials`. -/
def serializeLogin (c : LoginCredentials) : String :=
  renderObj (loginFields c)

/-- Rebuild a `LoginCredentials` record from a parsed field list. -/
def buildLogin : List (String × JVal) → Option LoginCredentials
  | [("username", JVal.str u), ("password", JVal.str p)] => some ⟨u, p⟩
  | _ => none

/-- Deserialization of `LoginCredentials`. -/
def deserializeLogin (s : String) : Option LoginCredentials :=
  (parseObj s).bind buildLogin

/-- The field list for `AppTokenCredentials`. -/
def apptokenFields (c : AppTokenCredentials) : List (String × JVal) :=
  [("app_token", JVal.str c.app_token), ("username", JVal.str c.username)]

/-- Serialization of `AppTokenCredentials`. -/
def serializeApptoken (c : AppTokenCredentials) : String :=
  renderObj (apptokenFields c)

/-- Rebuild an `AppTokenCredentials` record from a parsed field list. -/
def buildApptoken : List (String × JVal) → Option AppTokenCredentials
  | [("app_token", JVal.str t), ("username", JVal.str u)] => some ⟨t, u⟩
  | _ => none

/-- Deserialization of `AppTokenCredentials`. -/
def deserializeApptoken (s : String) : Option AppTokenCredentials :=
  (parseObj s).bind buildApptoken

/-! ## Credential store (src-tauri/src/commands/credentials.rs)

The OS secret store (the `keyring` crate over the platform keychain) is
modelled as a key-value map from composite keys to string values, as the
claims prescribe.  All entries live under the fixed service name
`"monash-nimbus-reports"`, so the service component is constant and the
map is keyed by the composite `"<kind>:<profile_name>"` alone.  Backend
outages are outside the model; the modelled failures are the per-key
not-found conditions. -/

/-- The backing secret store: one string value per composite key. -/
def Store : Type := List (String × String)

/-- Value stored under a key. -/
def kvGet : Store → String → Option String
  | [], _ => none
  | kv :: rest, k => if kv.1 = k then some kv.2 else kvGet rest k

/-- Model of `set_password`: overwrite the value of an existing key,
otherwise add the entry. -/
def kvSet : Store → String → String → Store
  | [], k, v => [(k, v)]
  | kv :: rest, k, v =>
    if kv.1 = k then (k, v) :: rest else kv :: kvSet rest k v

/-- Model of `delete_credential`: remove the entry. -/
def kvDelete : Store → String → Store
  | [], _ => []
  | kv :: rest, k =>
    if kv.1 = k then kvDelete rest k else kv :: kvDelete rest k

/-- The fixed service namespace (`SERVICE_NAME` in credentials.rs). -/
def serviceName : String := "monash-nimbus-reports"

/-- Composite key built by `get_entry`. -/
def profileKey (profile_name : String) : String := "profile:" ++ profile_name

/-- Composite key built by `get_login_entry`. -/
def loginKey (profile_name : String) : String := "login:" ++ profile_name

/-- Composite key built by `get_apptoken_entry`. -/
def apptokenKey (profile_name : String) : String := "apptoken:" ++ profile_name

/-- The keyring's no-entry failure text (keyring crate, external). -/
def keyringNoEntryMsg : String := "No matching entry found in secure storage"

/-- Model of `save_credentials`: serialize and write under the profile
key (serialization of these records cannot fail; backend write failures
are outside the key-value model). -/
def save_credentials (st : Store) (profile_name : String) (credentials : Credentials) : Store :=
  kvSet st (profileKey profile_name) (serializeCredentials credentials)

/-- Model of `load_credentials`: read the profile key, then deserialize;
a missing entry and a decode failure surface as distinct errors. -/
def load_credentials (st : Store) (profile_name : String) : Except String Credentials :=
  match kvGet st (profileKey profile_name) with
  | none => .error ("Failed to load credentials from keyring: " ++ keyringNoEntryMsg)
  | some s =>
    match deserializeCredentials s with
    | some c => .ok c
    | none => .error "Failed to deserialize credentials"

/-- Model of `delete_credentials`: remove the profile key; deleting a
missing entry is the keyring's no-entry failure. -/
def delete_credentials (st : Store) (profile_name : String) : Except String Store :=
  match kvGet st (profileKey profile_name) with
  | none => .error ("Failed to delete credentials from keyring: " ++ keyringNoEntryMsg)
  | some _ => .ok (kvDelete st (profileKey profile_name))

/-- Model of `save_login_credentials`. -/
def save_login_credentials (st : Store) (profile_name : String)
    (credentials : LoginCredentials) : Store :=
  kvSet st (loginKey profile_name) (serializeLogin credentials)

/-- Model of `load_login_credentials`. -/
def load_login_credentials (st : Store) (profile_name : String) :
    Except String LoginCredentials :=
  match kvGet st (loginKey profile_name) with
  | none => .error ("Failed to load login credentials from keyring: " ++ keyringNoEntryMsg)
  | some s =>
    match deserializeLogin s with
    | some c => .ok c
    | none => .error "Failed to deserialize login credentials"

/-- Model of `delete_login_credentials`. -/
def delete_login_credentials (st : Store) (profile_name : String) : Except String Store :=
  match kvGet st (loginKey profile_name) with
  | none => .error ("Failed to delete login credentials from keyring: " ++ keyringNoEntryMsg)
  | some _ => .ok (kvDelete st (loginKey profile_name))

/-- Model of `save_apptoken_credentials`. -/
def save_apptoken_credentials (st : Store) (profile_name : String)
    (credentials : AppTokenCredentials) : Store :=
  kvSet st (apptokenKey profile_name) (serializeApptoken credentials)

/-- Model of `load_apptoken_credentials`. -/
def load_apptoken_credentials (st : Store) (profile_name : String) :
    Except String AppTokenCredentials :=
  match kvGet st (apptokenKey profile_name) with
  | none => .error ("Failed to load app token credentials from keyring: " ++ keyringNoEntryMsg)
  | some s =>
    match deserializeApptoken s with
    | some c => .ok c
    | none => .error "Failed to deserialize app token credentials"

/-- Model of `delete_apptoken_credentials`. -/
def delete_apptoken_credentials (st : Store) (profile_name : String) : Except String Store :=
  match kvGet st (apptokenKey profile_name) with
  | none => .error ("Failed to delete app token credentials from keyring: " ++ keyringNoEntryMsg)
  | some _ => .ok (kvDelete st (apptokenKey profile_name))

end Nimbus

namespace Nimbus

/-! # Theorems -/

/-- Helper: `is_newer_version` holds exactly when at some index below 3
the candidate's effective component strictly exceeds the current one and
all earlier effective components agree. -/
theorem is_newer_version_iff (c l : String) :
    is_newer_version c l = true ↔
      ∃ i, i < 3 ∧ comp3 c i < comp3 l i ∧ ∀ j, j < i → comp3 c j = comp3 l j := by
  constructor
  · intro h
    unfold is_newer_version at h
    split_ifs at h with h1 h2 h3 h4 h5 h6
    · exact ⟨0, by omega, h1, fun j hj => absurd hj (Nat.not_lt_zero j)⟩
    · exact ⟨1, by omega, h3, fun j hj => by interval_cases j; omega⟩
    · exact ⟨2, by omega, h5, fun j hj => by interval_cases j <;> omega⟩
  · rintro ⟨i, hi, hlt, hprev⟩
    interval_cases i
    · unfold is_newer_version
      rw [if_pos hlt]
    · have e0 : comp3 c 0 = comp3 l 0 := hprev 0 (by omega)
      unfold is_newer_version
      rw [if_neg (by omega), if_neg (by omega), if_pos hlt]
    · have e0 : comp3 c 0 = comp3 l 0 := hprev 0 (by omega)
      have e1 : comp3 c 1 = comp3 l 1 := hprev 1 (by omega)
      unfold is_newer_version
      rw [if_neg (by omega), if_neg (by omega), if_neg (by omega), if_neg (by omega),
        if_pos hlt]

/-- C10: the effective request URL of execute_rest_get / execute_rest_post
is decided by this exact case analysis: a supplied `url` is used verbatim;
else a supplied `base_url` with an `endpoint` is the base with all
trailing slashes removed, concatenated directly with the endpoint (no
slash inserted); else a `base_url` alone is used as is; else an `endpoint`
alone is used as the full URL; only with all three absent does the call
fail with the no-URL error. -/
theorem C10_resolve_full_url_cases :
    (∀ (u : String) (b e : Option String), resolve_full_url (some u) b e = .ok u) ∧
    (∀ (b e : String),
        resolve_full_url none (some b) (some e) = .ok (rstripSlashes b ++ e)) ∧
    (∀ b : String, resolve_full_url none (some b) none = .ok b) ∧
    (∀ e : String, resolve_full_url none none (some e) = .ok e) ∧
    resolve_full_url none none none = .error noUrlError :=
  ⟨fun _ _ _ => rfl, fun _ _ => rfl, fun _ => rfl, fun _ => rfl, rfl⟩

/-- C5 counterexample: with no `url` and no `base_url` but an `endpoint`,
neither a fully-qualified URL nor a (base_url, endpoint) pair is supplied,
yet the call does not fail with the no-URL error: the endpoint alone is
used as the full URL. -/
theorem C5_counterexample :
    resolve_full_url none none (some "api/sessions") = .ok "api/sessions" ∧
    resolve_full_url none none (some "api/sessions") ≠ .error noUrlError :=
  ⟨rfl, fun h => by simp [resolve_full_url] at h⟩

/-- C5 (amended): execute_rest_get / execute_rest_post fail with the
"no URL provided" error exactly when `url`, `base_url` and `endpoint` are
all absent (an endpoint alone is accepted and used as the full URL); the
URL is resolved before the request is issued, so the failure precedes any
network I/O. -/
theorem C5_no_url_error_iff (u b e : Option String) :
    (∃ err, resolve_full_url u b e = .error err) ↔ u = none ∧ b = none ∧ e = none := by
  constructor
  · rintro ⟨err, herr⟩
    cases u with
    | some x => simp [resolve_full_url] at herr
    | none =>
      cases b with
      | some x =>
        cases e <;> simp [resolve_full_url] at herr
      | none =>
        cases e with
        | some x => simp [resolve_full_url] at herr
        | none => exact ⟨rfl, rfl, rfl⟩
  · rintro ⟨rfl, rfl, rfl⟩
    exact ⟨noUrlError, rfl⟩

/-- C5 witness: the amended statement at a concrete input. -/
theorem C5_no_url_error_iff_witness :
    (∃ err, resolve_full_url none none none = .error err) ↔
      (none : Option String) = none ∧ (none : Option String) = none ∧
      (none : Option String) = none :=
  C5_no_url_error_iff none none none

/-- C3 counterexample: the claim says a non-numeric component defaults
to 0, under which "1.x.3" reads as (1,0,3) and is not newer than
"1.2.3"; the code's `filter_map` instead drops the non-numeric piece, so
"1.x.3" reads as (1,3,0) and the comparison declares it newer. -/
theorem C3_counterexample :
    is_newer_version "1.2.3" "1.x.3" = true ∧
    is_newer_version_claim "1.2.3" "1.x.3" = false := by
  constructor <;> decide

/-- C3 (amended): is_newer_version compares exactly three components,
where the split pieces that fail to parse as numbers are dropped
(shifting later pieces left) and missing components default to 0; the
candidate is newer iff at the first index in 0..3 where the effective
components differ the candidate's is greater, and not newer when all
three agree; the given examples hold, and check_for_updates strips the
leading `v` of the release tag before comparing. -/
theorem C3_is_newer_version_spec :
    (∀ c l : String, is_newer_version c l = true ↔
        ∃ i, i < 3 ∧ comp3 c i < comp3 l i ∧ ∀ j, j < i → comp3 c j = comp3 l j) ∧
    (∀ v : String, comp3 v 0 = (versionComponents v).getD 0 0 ∧
        versionComponents v = (splitOnChar '.' v).filterMap parseU32) ∧
    is_newer_version "1.2.3" "1.2.4" = true ∧
    is_newer_version "1.9.0" "2.0.0" = true ∧
    is_newer_version "2.0.0" "1.9.9" = false ∧
    is_newer_version "1.0" "1.0.0" = false ∧
    stripLeadingV "v1.2.3" = "1.2.3" ∧
    (∀ (current : String) (rel : GitHubRelease) (hs : List (String × String)) (b : String),
        check_for_updates_handle current (fun _ => .ok rel) ⟨200, hs, .ok b⟩ =
          .ok ⟨current, some (stripLeadingV rel.tag_name),
               is_newer_version current (stripLeadingV rel.tag_name),
               some rel.html_url, rel.body⟩) := by
  refine ⟨is_newer_version_iff, fun v => ⟨rfl, rfl⟩, by decide, by decide, by decide,
    by decide, by decide, fun current rel hs b => ?_⟩
  simp [check_for_updates_handle, isSuccessStatus]

/-- C3 witness: the amended comparison characterization applied at a
concrete pair, and the concrete success-path equation of
check_for_updates showing the v-stripping. -/
theorem C3_is_newer_version_spec_witness :
    is_newer_version "1.2.3" "1.2.4" = true ∧
    check_for_updates_handle "1.2.3" (fun _ => .ok ⟨"v1.2.4", "u", none⟩) ⟨200, [], .ok "{}"⟩ =
      .ok ⟨"1.2.3", some "1.2.4", true, some "u", none⟩ := by
  refine ⟨C3_is_newer_version_spec.2.2.1, ?_⟩
  have h := C3_is_newer_version_spec.2.2.2.2.2.2.2 "1.2.3" ⟨"v1.2.4", "u", none⟩ [] "{}"
  rw [h]
  simp only [show stripLeadingV "v1.2.4" = "1.2.4" from by decide,
    show is_newer_version "1.2.3" "1.2.4" = true from by decide]

/-- C2 counterexample: when the base URL ends in the legacy path but also
contains "/ODataApi" earlier, `String::replace` rewrites every occurrence,
not only the suffix the claim describes. -/
theorem C2_counterexample :
    odata_base "https://h/ODataApi/x/ODataApi" = "https://h/CoreApi/OData/x/CoreApi/OData" ∧
    odata_base_claim "https://h/ODataApi/x/ODataApi" = "https://h/ODataApi/x/CoreApi/OData" ∧
    odata_base "https://h/ODataApi/x/ODataApi" ≠
      odata_base_claim "https://h/ODataApi/x/ODataApi" :=
  ⟨by decide, by decide, by decide⟩

/-- C2 (amended): the OData query root is the base URL unchanged except
trailing slashes stripped when it ends in "/CoreApi/OData" or
"/CoreApi/OData/"; the base URL with every occurrence of "/ODataApi"
replaced by "/CoreApi/OData" (then trailing slashes stripped) when it
ends in the legacy path; the base URL unchanged (trailing slash stripped)
when it ends in "/odata" or "/odata/"; and otherwise the base URL with
trailing slashes stripped and "/CoreApi/OData" appended; in particular
the seven single-suffix cases behave as the spec lists. -/
theorem C2_odata_base_spec :
    (∀ b : String,
        (strEndsWith b "/CoreApi/OData" || strEndsWith b "/CoreApi/OData/") = true →
        odata_base b = rstripSlashes b) ∧
    (∀ b : String,
        (strEndsWith b "/CoreApi/OData" || strEndsWith b "/CoreApi/OData/") = false →
        (strEndsWith b "/ODataApi" || strEndsWith b "/ODataApi/") = true →
        odata_base b = rstripSlashes (stringReplace b "/ODataApi" "/CoreApi/OData")) ∧
    (∀ b : String,
        (strEndsWith b "/CoreApi/OData" || strEndsWith b "/CoreApi/OData/") = false →
        (strEndsWith b "/ODataApi" || strEndsWith b "/ODataApi/") = false →
        (strEndsWith b "/odata" || strEndsWith b "/odata/") = true →
        odata_base b = rstripSlashes b) ∧
    (∀ b : String,
        (strEndsWith b "/CoreApi/OData" || strEndsWith b "/CoreApi/OData/") = false →
        (strEndsWith b "/ODataApi" || strEndsWith b "/ODataApi/") = false →
        (strEndsWith b "/odata" || strEndsWith b "/odata/") = false →
        odata_base b = rstripSlashes b ++ "/CoreApi/OData") ∧
    odata_base "https://h/CoreApi/OData" = "https://h/CoreApi/OData" ∧
    odata_base "https://h/CoreApi/OData/" = "https://h/CoreApi/OData" ∧
    odata_base "https://h/ODataApi" = "https://h/CoreApi/OData" ∧
    odata_base "https://h/ODataApi/" = "https://h/CoreApi/OData" ∧
    odata_base "https://h/odata" = "https://h/odata" ∧
    odata_base "https://h/odata/" = "https://h/odata" ∧
    odata_base "https://h" = "https://h/CoreApi/OData" := by
  refine ⟨fun b h => ?_, fun b h1 h2 => ?_, fun b h1 h2 h3 => ?_, fun b h1 h2 h3 => ?_,
    by decide, by decide, by decide, by decide, by decide, by decide, by decide⟩
  · simp [odata_base, h]
  · simp [odata_base, h1, h2]
  · simp [odata_base, h1, h2, h3]
  · simp [odata_base, h1, h2, h3]

/-- C4: query parameters are appended only when present and non-empty,
in the fixed order $top, $skip, $filter (verbatim, no percent-encoding in
the assembly), $select, $expand, $orderby, $count=true (only when the
count flag is set); absent parameters and empty strings produce nothing,
and the spec's example URL shape holds. -/
theorem C4_odata_params_assembly :
    (∀ (t sk : Int) (f se ex ob : String),
        f.isEmpty = false → se.isEmpty = false → ex.isEmpty = false → ob.isEmpty = false →
        odata_params (some t) (some sk) (some f) (some se) (some ex) (some ob) (some true) =
          ["$top=" ++ toString t, "$skip=" ++ toString sk, "$filter=" ++ f,
           "$select=" ++ se, "$expand=" ++ ex, "$orderby=" ++ ob, "$count=true"]) ∧
    odata_params none none none none none none none = [] ∧
    odata_params none none (some "") (some "") (some "") (some "") (some false) = [] ∧
    (∀ base entity : String,
        odata_url base entity none none (some "") none none none none =
          odata_base base ++ "/" ++ entity) ∧
    strEndsWith (odata_url "https://h" "Incidents" (some 10) none none none none none (some true))
      "/Incidents?$top=10&$count=true" = true := by
  refine ⟨fun t sk f se ex ob hf hse hex hob => ?_, rfl, by decide,
    fun base entity => ?_, by decide⟩
  · simp [odata_params, hf, hse, hex, hob]
  · simp [odata_url, odata_params, show ("" : String).isEmpty = true from rfl]

/-- C4 witness: the ordered assembly at concrete arguments. -/
theorem C4_odata_params_assembly_witness :
    odata_params (some 10) (some 5) (some "A eq 1") (some "s") (some "e") (some "o")
      (some true) =
      ["$top=10", "$skip=5", "$filter=A eq 1", "$select=s", "$expand=e", "$orderby=o",
       "$count=true"] := by
  have h := C4_odata_params_assembly.1 10 5 "A eq 1" "s" "e" "o"
    (by decide) (by decide) (by decide) (by decide)
  rw [h]
  decide

/-- C6: execute_rest_get / execute_rest_post hand back the full response
(status, headers, raw body) whatever the status is, so a non-2xx status
alone is never an error there; execute_odata_query errors on every
non-success status with the body included in the error text, and on
success always parses the body as JSON, a parse failure being its own
distinct error. -/
theorem C6_status_policy :
    (∀ (r : RawResponse) (b : String), r.bodyResult = .ok b →
        response_to_http_response r = .ok ⟨r.status, b, r.headers⟩) ∧
    (∀ (α : Type) (parse : String → Except String α) (r : RawResponse),
        isSuccessStatus r.status = false →
        odata_handle_response parse r =
          .error ("OData query failed with status " ++ toString r.status ++ ": " ++
            bodyOrEmpty r)) ∧
    (∀ (α : Type) (parse : String → Except String α) (r : RawResponse) (b : String) (v : α),
        isSuccessStatus r.status = true → r.bodyResult = .ok b → parse b = .ok v →
        odata_handle_response parse r = .ok v) ∧
    (∀ (α : Type) (parse : String → Except String α) (r : RawResponse) (b e : String),
        isSuccessStatus r.status = true → r.bodyResult = .ok b → parse b = .error e →
        odata_handle_response parse r =
          .error ("Failed to parse OData response as JSON: " ++ e)) := by
  refine ⟨fun r b hb => ?_, fun α parse r h => ?_, fun α parse r b v hs hb hp => ?_,
    fun α parse r b e hs hb hp => ?_⟩
  · simp [response_to_http_response, hb]
  · simp [odata_handle_response, h]
  · simp [odata_handle_response, hs, hb, hp]
  · simp [odata_handle_response, hs, hb, hp]

/-- C6 witness: the four behaviours at concrete exchanges. -/
theorem C6_status_policy_witness :
    response_to_http_response ⟨500, [("k", "v")], .ok "oops"⟩ =
      .ok ⟨500, "oops", [("k", "v")]⟩ ∧
    odata_handle_response (fun s => .ok s) ⟨503, [], .ok "down"⟩ =
      .error ("OData query failed with status " ++ toString 503 ++ ": " ++
        bodyOrEmpty ⟨503, [], .ok "down"⟩) ∧
    odata_handle_response (fun s => .ok s) ⟨200, [], .ok "{}"⟩ = .ok "{}" ∧
    odata_handle_response (fun _ => (.error "bad" : Except String String)) ⟨200, [], .ok "x"⟩ =
      .error ("Failed to parse OData response as JSON: " ++ "bad") :=
  ⟨C6_status_policy.1 ⟨500, [("k", "v")], .ok "oops"⟩ "oops" rfl,
   C6_status_policy.2.1 String (fun s => .ok s) ⟨503, [], .ok "down"⟩ (by decide),
   C6_status_policy.2.2.1 String (fun s => .ok s) ⟨200, [], .ok "{}"⟩ "{}" "{}"
     (by decide) rfl rfl,
   C6_status_policy.2.2.2 String (fun _ => .error "bad") ⟨200, [], .ok "x"⟩ "x" "bad"
     (by decide) rfl rfl⟩

/-- C8: a 404 from the release API is not an error: check_for_updates
yields current version, no latest version, no update, no URL, no notes;
every other non-success status is an error carrying status and body. -/
theorem C8_check_for_updates_status :
    (∀ (current : String) (parse : String → Except String GitHubRelease)
        (hs : List (String × String)) (br : Except String String),
        check_for_updates_handle current parse ⟨404, hs, br⟩ =
          .ok ⟨current, none, false, none, none⟩) ∧
    (∀ (current : String) (parse : String → Except String GitHubRelease) (r : RawResponse),
        r.status ≠ 404 → isSuccessStatus r.status = false →
        check_for_updates_handle current parse r =
          .error ("GitHub API returned status " ++ toString r.status ++ ": " ++
            bodyOrEmpty r)) := by
  refine ⟨fun current parse hs br => rfl, fun current parse r h404 hs => ?_⟩
  simp [check_for_updates_handle, h404, hs]

/-- C8 witness: a concrete 404 and a concrete 500. -/
theorem C8_check_for_updates_status_witness :
    check_for_updates_handle "1.0.0" (fun _ => .error "n/a") ⟨404, [], .ok ""⟩ =
      .ok ⟨"1.0.0", none, false, none, none⟩ ∧
    check_for_updates_handle "1.0.0" (fun _ => .error "n/a") ⟨500, [], .ok "boom"⟩ =
      .error ("GitHub API returned status " ++ toString 500 ++ ": " ++
        bodyOrEmpty ⟨500, [], .ok "boom"⟩) :=
  ⟨C8_check_for_updates_status.1 "1.0.0" (fun _ => .error "n/a") [] (.ok ""),
   C8_check_for_updates_status.2 "1.0.0" (fun _ => .error "n/a") ⟨500, [], .ok "boom"⟩
     (by decide) (by decide)⟩

/-- Helper: looking up the name just inserted yields the new value. -/
theorem lookup_headerInsert_self (m : HeaderMap) (k v : String) :
    lookupHeader (headerInsert m k v) k = some v := by
  induction m with
  | nil => simp [headerInsert, lookupHeader]
  | cons kv rest ih =>
    by_cases h : kv.1 == k
    · simp [headerInsert, lookupHeader, h]
    · simp [headerInsert, lookupHeader, h, ih]

/-- Helper: inserting one name leaves every other name's value alone. -/
theorem lookup_headerInsert_ne (m : HeaderMap) (k v k' : String) (h : k ≠ k') :
    lookupHeader (headerInsert m k v) k' = lookupHeader m k' := by
  induction m with
  | nil => simp [headerInsert, lookupHeader, h]
  | cons kv rest ih =>
    by_cases hk : kv.1 == k
    · have hne : ¬(k == k') := by simpa using h
      have hkv : ¬(kv.1 == k') := by
        have : kv.1 = k := by simpa using hk
        simpa [this] using h
      simp [headerInsert, lookupHeader, hk, hne, hkv]
    · by_cases hk2 : kv.1 == k'
      · simp [headerInsert, lookupHeader, hk, hk2]
      · simp [headerInsert, lookupHeader, hk, hk2, ih]

/-- Helper: a successful custom-header pass leaves names it never touches
unchanged. -/
theorem insertCustom_preserve (cs : List (String × String)) :
    ∀ (m m' : HeaderMap) (k : String), insertCustom m cs = .ok m' →
      (∀ kv ∈ cs, lowerName kv.1 ≠ k) → lookupHeader m' k = lookupHeader m k := by
  induction cs with
  | nil =>
    intro m m' k h _
    simp only [insertCustom, Except.ok.injEq] at h
    rw [h]
  | cons kv rest ih =>
    intro m m' k h hne
    obtain ⟨a, b⟩ := kv
    by_cases h1 : validHeaderName a
    · by_cases h2 : validHeaderValue b
      · simp only [insertCustom, h1, h2, if_true] at h
        have hrest : ∀ kv2 ∈ rest, lowerName kv2.1 ≠ k :=
          fun kv2 hkv2 => hne kv2 (List.mem_cons_of_mem _ hkv2)
        rw [ih _ _ _ h hrest,
          lookup_headerInsert_ne _ _ _ _ (hne (a, b) (List.mem_cons_self _ _))]
      · simp [insertCustom, h1, h2] at h
    · simp [insertCustom, h1] at h

/-- Helper: after a successful custom-header pass, each supplied pair is
stored under its lowercased name (given the lowercased names are
pairwise distinct, as they are for a map of distinct header names). -/
theorem insertCustom_lookup (cs : List (String × String)) :
    ∀ (m m' : HeaderMap) (k v : String), insertCustom m cs = .ok m' → (k, v) ∈ cs →
      cs.Pairwise (fun x y => lowerName x.1 ≠ lowerName y.1) →
      lookupHeader m' (lowerName k) = some v := by
  induction cs with
  | nil =>
    intro m m' k v _ hmem _
    cases hmem
  | cons kv rest ih =>
    intro m m' k v h hmem hpw
    obtain ⟨a, b⟩ := kv
    by_cases h1 : validHeaderName a
    · by_cases h2 : validHeaderValue b
      · simp only [insertCustom, h1, h2, if_true] at h
        rcases List.mem_cons.mp hmem with heq | hmem'
        · cases heq
          have hrest : ∀ kv2 ∈ rest, lowerName kv2.1 ≠ lowerName k := by
            intro kv2 hkv2 hc
            exact (List.pairwise_cons.mp hpw).1 kv2 hkv2 hc.symm
          rw [insertCustom_preserve rest _ _ _ h hrest, lookup_headerInsert_self]
        · exact ih _ _ _ _ h hmem' (List.pairwise_cons.mp hpw).2
      · simp [insertCustom, h1, h2] at h
    · simp [insertCustom, h1] at h

/-- Helper: one invalid custom name or value fails the whole pass. -/
theorem insertCustom_error (cs : List (String × String)) :
    ∀ m : HeaderMap,
      (∃ kv ∈ cs, validHeaderName kv.1 = false ∨ validHeaderValue kv.2 = false) →
      ∃ e, insertCustom m cs = .error e := by
  induction cs with
  | nil =>
    rintro m ⟨kv, hmem, _⟩
    cases hmem
  | cons kv rest ih =>
    rintro m ⟨kv2, hmem, hbad⟩
    obtain ⟨a, b⟩ := kv
    by_cases h1 : validHeaderName a
    · by_cases h2 : validHeaderValue b
      · rcases List.mem_cons.mp hmem with heq | hmem'
        · cases heq
          rcases hbad with hb | hb
          · rw [h1] at hb
            cases hb
          · rw [h2] at hb
            cases hb
        · obtain ⟨e, he⟩ := ih (headerInsert m (lowerName a) b) ⟨kv2, hmem', hbad⟩
          exact ⟨e, by simp [insertCustom, h1, h2, he]⟩
      · exact ⟨"Invalid header value for '" ++ a ++ "'", by simp [insertCustom, h1, h2]⟩
    · exact ⟨"Invalid header key '" ++ a ++ "'", by simp [insertCustom, h1]⟩

/-- Helper: prefixing "Bearer " does not change header-value validity
(all characters of the prefix are valid). -/
theorem validHeaderValue_bearer (t : String) :
    validHeaderValue ("Bearer " ++ t) = validHeaderValue t := by
  show (("Bearer " ++ t).data.all validHeaderValueChar) = t.data.all validHeaderValueChar
  have hd : ("Bearer " ++ t).data = "Bearer ".data ++ t.data := rfl
  rw [hd, List.all_append]
  have hb : "Bearer ".data.all validHeaderValueChar = true := by decide
  rw [hb, Bool.true_and]

/-- Helper: with a valid token, `build_headers` with custom headers is the
custom pass over the base map; stated for each shape of `user_id`. -/
theorem build_headers_custom_eq (cs : List (String × String)) (uid : Option Int)
    (tok : Option String)
    (htok : ∀ t, tok = some t → validHeaderValue t = true) :
    build_headers (some cs) uid tok =
      insertCustom
        ([("accept", "application/json"), ("content-type", "application/json")] ++
         (match uid with | some u => [("userid", toString u)] | none => []) ++
         (match tok with
          | some t => [("authorization", "Bearer " ++ t), ("authenticationtoken", t)]
          | none => [])) cs := by
  cases tok with
  | none =>
    cases uid <;> rfl
  | some t =>
    have hv : validHeaderValue t = true := htok t rfl
    have hb : validHeaderValue ("Bearer " ++ t) = true := by
      rw [validHeaderValue_bearer, hv]
    cases uid <;> simp [build_headers, hv, hb, headerInsert, lookupHeader] <;> rfl

/-- C7: build_headers always includes Accept and Content-Type
application/json defaults (shown without custom headers for each
argument shape); a supplied user_id is sent as the decimal UserID header;
a supplied auth_token is sent both as Authorization Bearer and as
AuthenticationToken; custom headers are applied last and each one ends up
stored under its (case-normalized) name, overriding any default of the
same name, while untouched defaults survive; and one invalid custom
header name or value fails the whole construction, before any request is
sent. -/
theorem C7_build_headers_spec :
    build_headers none none none =
      .ok [("accept", "application/json"), ("content-type", "application/json")] ∧
    (∀ uid : Int, build_headers none (some uid) none =
      .ok [("accept", "application/json"), ("content-type", "application/json"),
           ("userid", toString uid)]) ∧
    (∀ tok : String, validHeaderValue tok = true → build_headers none none (some tok) =
      .ok [("accept", "application/json"), ("content-type", "application/json"),
           ("authorization", "Bearer " ++ tok), ("authenticationtoken", tok)]) ∧
    (∀ (cs : List (String × String)) (uid : Option Int) (tok : Option String)
        (m : HeaderMap) (k v : String),
        build_headers (some cs) uid tok = .ok m → (k, v) ∈ cs →
        cs.Pairwise (fun x y => lowerName x.1 ≠ lowerName y.1) →
        lookupHeader m (lowerName k) = some v) ∧
    (∀ (cs : List (String × String)) (uid : Option Int) (tok : Option String)
        (m : HeaderMap),
        build_headers (some cs) uid tok = .ok m →
        (∀ kv ∈ cs, lowerName kv.1 ≠ "accept") →
        lookupHeader m "accept" = some "application/json") ∧
    (∀ (cs : List (String × String)) (uid : Option Int) (tok : Option String)
        (m : HeaderMap),
        build_headers (some cs) uid tok = .ok m →
        (∀ kv ∈ cs, lowerName kv.1 ≠ "content-type") →
        lookupHeader m "content-type" = some "application/json") ∧
    (∀ (cs : List (String × String)) (uid : Option Int) (tok : Option String),
        (∃ kv ∈ cs, validHeaderName kv.1 = false ∨ validHeaderValue kv.2 = false) →
        ∃ e, build_headers (some cs) uid tok = .error e) := by
  have hbase : ∀ (uid : Option Int) (tok : Option String) (k : String),
      k = "accept" ∨ k = "content-type" →
      lookupHeader
        ([("accept", "application/json"), ("content-type", "application/json")] ++
         (match uid with | some u => [("userid", toString u)] | none => []) ++
         (match tok with
          | some t => [("authorization", "Bearer " ++ t), ("authenticationtoken", t)]
          | none => [])) k =
        some "application/json" := by
    intro uid tok k hk
    rcases hk with rfl | rfl <;> cases uid <;> cases tok <;> rfl
  have hextract : ∀ (cs : List (String × String)) (uid : Option Int) (tok : Option String)
      (m : HeaderMap), build_headers (some cs) uid tok = .ok m →
      insertCustom
        ([("accept", "application/json"), ("content-type", "application/json")] ++
         (match uid with | some u => [("userid", toString u)] | none => []) ++
         (match tok with
          | some t => [("authorization", "Bearer " ++ t), ("authenticationtoken", t)]
          | none => [])) cs = .ok m := by
    intro cs uid tok m h
    cases tok with
    | none =>
      rw [build_headers_custom_eq cs uid none (fun t ht => by cases ht)] at h
      exact h
    | some t =>
      by_cases hv : validHeaderValue t
      · rw [build_headers_custom_eq cs uid (some t)
          (fun t2 ht2 => by cases ht2; exact hv)] at h
        exact h
      · have hb : ¬ validHeaderValue ("Bearer " ++ t) = true := by
          rw [validHeaderValue_bearer]
          exact hv
        cases uid <;> simp [build_headers, hb] at h
  refine ⟨rfl, fun uid => rfl, fun tok hv => ?_, ?_, ?_, ?_, ?_⟩
  · have hb : validHeaderValue ("Bearer " ++ tok) = true := by
      rw [validHeaderValue_bearer, hv]
    simp [build_headers, hv, hb, headerInsert]
  · intro cs uid tok m k v h hmem hpw
    exact insertCustom_lookup cs _ m k v (hextract cs uid tok m h) hmem hpw
  · intro cs uid tok m h hne
    rw [insertCustom_preserve cs _ m "accept" (hextract cs uid tok m h) hne]
    exact hbase uid tok "accept" (Or.inl rfl)
  · intro cs uid tok m h hne
    rw [insertCustom_preserve cs _ m "content-type" (hextract cs uid tok m h) hne]
    exact hbase uid tok "content-type" (Or.inr rfl)
  · intro cs uid tok hbad
    cases tok with
    | none =>
      obtain ⟨e, he⟩ := insertCustom_error cs _ hbad
      exact ⟨e, by rw [build_headers_custom_eq cs uid none (fun t ht => by cases ht)]; exact he⟩
    | some t =>
      by_cases hv : validHeaderValue t
      · obtain ⟨e, he⟩ := insertCustom_error cs _ hbad
        exact ⟨e, by rw [build_headers_custom_eq cs uid (some t)
          (fun t2 ht2 => by cases ht2; exact hv)]; exact he⟩
      · by_cases hb : validHeaderValue ("Bearer " ++ t)
        · exact absurd (by rw [validHeaderValue_bearer] at hb; exact hb) hv
        · exact ⟨"Invalid authorization header", by cases uid <;> simp [build_headers, hb]⟩

/-- C7 witness: with a user id, a token, and one custom Accept header,
the custom value overrides the default Accept while Content-Type
survives; an invalid custom header name fails the construction. -/
theorem C7_build_headers_spec_witness :
    build_headers none (some 42) none =
      .ok [("accept", "application/json"), ("content-type", "application/json"),
           ("userid", toString (42 : Int))] ∧
    build_headers none none (some "tok") =
      .ok [("accept", "application/json"), ("content-type", "application/json"),
           ("authorization", "Bearer " ++ "tok"), ("authenticationtoken", "tok")] ∧
    (∀ m : HeaderMap, build_headers (some [("Accept", "text/xml")]) none none = .ok m →
        lookupHeader m (lowerName "Accept") = some "text/xml") ∧
    (∀ m : HeaderMap, build_headers (some [("Accept", "text/xml")]) none none = .ok m →
        lookupHeader m "content-type" = some "application/json") ∧
    (∃ e, build_headers (some [("bad name", "v")]) none none = .error e) :=
  ⟨C7_build_headers_spec.2.1 42,
   C7_build_headers_spec.2.2.1 "tok" (by decide),
   fun m h => C7_build_headers_spec.2.2.2.1 [("Accept", "text/xml")] none none m
     "Accept" "text/xml" h (List.mem_singleton.mpr rfl) (List.pairwise_singleton _ _),
   fun m h => C7_build_headers_spec.2.2.2.2.2.1 [("Accept", "text/xml")] none none m h
     (by intro kv hkv; rcases List.mem_singleton.mp hkv with rfl; decide),
   C7_build_headers_spec.2.2.2.2.2.2 [("bad name", "v")] none none
     ⟨("bad name", "v"), List.mem_singleton.mpr rfl, Or.inl (by decide)⟩⟩

/-- Helper: reading the key just written yields the new value. -/
theorem kvGet_kvSet_self (st : Store) (k v : String) : kvGet (kvSet st k v) k = some v := by
  induction st with
  | nil => simp [kvSet, kvGet]
  | cons kv rest ih =>
    by_cases h : kv.1 = k
    · simp [kvSet, kvGet, h]
    · simp [kvSet, kvGet, h, ih]

/-- Helper: writing one key leaves every other key's value alone. -/
theorem kvGet_kvSet_ne (st : Store) (k v k' : String) (h : k' ≠ k) :
    kvGet (kvSet st k v) k' = kvGet st k' := by
  induction st with
  | nil => simp [kvSet, kvGet, Ne.symm h]
  | cons kv rest ih =>
    by_cases h1 : kv.1 = k
    · simp [kvSet, kvGet, h1, Ne.symm h]
    · simp [kvSet, kvGet, h1, ih]

/-- Helper: a deleted key reads back as absent. -/
theorem kvGet_kvDelete_self (st : Store) (k : String) : kvGet (kvDelete st k) k = none := by
  induction st with
  | nil => rfl
  | cons kv rest ih =>
    by_cases h : kv.1 = k
    · simp [kvDelete, h, ih]
    · simp [kvDelete, kvGet, h, ih]

/-- Helper: deleting one key leaves every other key's value alone. -/
theorem kvGet_kvDelete_ne (st : Store) (k k' : String) (h : k' ≠ k) :
    kvGet (kvDelete st k) k' = kvGet st k' := by
  induction st with
  | nil => rfl
  | cons kv rest ih =>
    by_cases h1 : kv.1 = k
    · simp [kvDelete, kvGet, h1, Ne.symm h, ih]
    · simp [kvDelete, kvGet, h1, ih]

/-- Helper: profile keys and login keys never coincide. -/
theorem profileKey_ne_loginKey (a b : String) : profileKey a ≠ loginKey b := by
  intro h
  have h2 : (profileKey a).data.head? = (loginKey b).data.head? := by rw [h]
  have h3 : some 'p' = some 'l' := h2
  exact absurd (Option.some.inj h3) (by decide)

/-- Helper: profile keys and app-token keys never coincide. -/
theorem profileKey_ne_apptokenKey (a b : String) : profileKey a ≠ apptokenKey b := by
  intro h
  have h2 : (profileKey a).data.head? = (apptokenKey b).data.head? := by rw [h]
  have h3 : some 'p' = some 'a' := h2
  exact absurd (Option.some.inj h3) (by decide)

/-- Helper: login keys and app-token keys never coincide. -/
theorem loginKey_ne_apptokenKey (a b : String) : loginKey a ≠ apptokenKey b := by
  intro h
  have h2 : (loginKey a).data.head? = (apptokenKey b).data.head? := by rw [h]
  have h3 : some 'l' = some 'a' := h2
  exact absurd (Option.some.inj h3) (by decide)

/-- C9: the three credential kinds are independent namespaces: the keys
"profile:<name>", "login:<name>" and "apptoken:<name>" never collide
across kinds for any names; every save or delete of one kind leaves the
stored values under the other two kinds' keys unchanged; and each load
reads only its own kind's key (its result depends on nothing else in the
store). -/
theorem C9_kind_isolation :
    (∀ a b, profileKey a ≠ loginKey b) ∧
    (∀ a b, profileKey a ≠ apptokenKey b) ∧
    (∀ a b, loginKey a ≠ apptokenKey b) ∧
    (∀ (st : Store) (p q : String) (c : Credentials),
        kvGet (save_credentials st p c) (loginKey q) = kvGet st (loginKey q) ∧
        kvGet (save_credentials st p c) (apptokenKey q) = kvGet st (apptokenKey q)) ∧
    (∀ (st : Store) (p q : String) (c : LoginCredentials),
        kvGet (save_login_credentials st p c) (profileKey q) = kvGet st (profileKey q) ∧
        kvGet (save_login_credentials st p c) (apptokenKey q) = kvGet st (apptokenKey q)) ∧
    (∀ (st : Store) (p q : String) (c : AppTokenCredentials),
        kvGet (save_apptoken_credentials st p c) (profileKey q) = kvGet st (profileKey q) ∧
        kvGet (save_apptoken_credentials st p c) (loginKey q) = kvGet st (loginKey q)) ∧
    (∀ (st st' : Store) (p q : String), delete_credentials st p = .ok st' →
        kvGet st' (loginKey q) = kvGet st (loginKey q) ∧
        kvGet st' (apptokenKey q) = kvGet st (apptokenKey q)) ∧
    (∀ (st st' : Store) (p q : String), delete_login_credentials st p = .ok st' →
        kvGet st' (profileKey q) = kvGet st (profileKey q) ∧
        kvGet st' (apptokenKey q) = kvGet st (apptokenKey q)) ∧
    (∀ (st st' : Store) (p q : String), delete_apptoken_credentials st p = .ok st' →
        kvGet st' (profileKey q) = kvGet st (profileKey q) ∧
        kvGet st' (loginKey q) = kvGet st (loginKey q)) ∧
    (∀ (st st' : Store) (p : String),
        kvGet st (profileKey p) = kvGet st' (profileKey p) →
        load_credentials st p = load_credentials st' p) ∧
    (∀ (st st' : Store) (p : String),
        kvGet st (loginKey p) = kvGet st' (loginKey p) →
        load_login_credentials st p = load_login_credentials st' p) ∧
    (∀ (st st' : Store) (p : String),
        kvGet st (apptokenKey p) = kvGet st' (apptokenKey p) →
        load_apptoken_credentials st p = load_apptoken_credentials st' p) := by
  refine ⟨profileKey_ne_loginKey, profileKey_ne_apptokenKey, loginKey_ne_apptokenKey,
    ?_, ?_, ?_, ?_, ?_, ?_, ?_, ?_, ?_⟩
  · intro st p q c
    exact ⟨kvGet_kvSet_ne st _ _ _ fun hq => profileKey_ne_loginKey p q hq.symm,
      kvGet_kvSet_ne st _ _ _ fun hq => profileKey_ne_apptokenKey p q hq.symm⟩
  · intro st p q c
    exact ⟨kvGet_kvSet_ne st _ _ _ (profileKey_ne_loginKey q p),
      kvGet_kvSet_ne st _ _ _ fun hq => loginKey_ne_apptokenKey p q hq.symm⟩
  · intro st p q c
    exact ⟨kvGet_kvSet_ne st _ _ _ (profileKey_ne_apptokenKey q p),
      kvGet_kvSet_ne st _ _ _ (loginKey_ne_apptokenKey q p)⟩
  · intro st st' p q h
    cases hk : kvGet st (profileKey p) with
    | none => simp [delete_credentials, hk] at h
    | some s =>
      simp only [delete_credentials, hk, Except.ok.injEq] at h
      subst h
      exact ⟨kvGet_kvDelete_ne st _ _ fun hq => profileKey_ne_loginKey p q hq.symm,
        kvGet_kvDelete_ne st _ _ fun hq => profileKey_ne_apptokenKey p q hq.symm⟩
  · intro st st' p q h
    cases hk : kvGet st (loginKey p) with
    | none => simp [delete_login_credentials, hk] at h
    | some s =>
      simp only [delete_login_credentials, hk, Except.ok.injEq] at h
      subst h
      exact ⟨kvGet_kvDelete_ne st _ _ (profileKey_ne_loginKey q p),
        kvGet_kvDelete_ne st _ _ fun hq => loginKey_ne_apptokenKey p q hq.symm⟩
  · intro st st' p q h
    cases hk : kvGet st (apptokenKey p) with
    | none => simp [delete_apptoken_credentials, hk] at h
    | some s =>
      simp only [delete_apptoken_credentials, hk, Except.ok.injEq] at h
      subst h
      exact ⟨kvGet_kvDelete_ne st _ _ (profileKey_ne_apptokenKey q p),
        kvGet_kvDelete_ne st _ _ (loginKey_ne_apptokenKey q p)⟩
  · intro st st' p h
    unfold load_credentials
    rw [h]
  · intro st st' p h
    unfold load_login_credentials
    rw [h]
  · intro st st' p h
    unfold load_apptoken_credentials
    rw [h]

/-- C9 witness: a concrete store exercising the frame conditions: saving
and deleting a login record leaves the profile record's stored value in
place, and loads agree across stores that agree on the read key. -/
theorem C9_kind_isolation_witness :
    kvGet (save_login_credentials [(profileKey "a", "pv")] "a" ⟨"u", "pw"⟩)
        (profileKey "a") = kvGet [(profileKey "a", "pv")] (profileKey "a") ∧
    (∀ st' : Store,
        delete_login_credentials [(profileKey "a", "pv"), (loginKey "a", "lv")] "a" = .ok st' →
        kvGet st' (profileKey "a") =
          kvGet [(profileKey "a", "pv"), (loginKey "a", "lv")] (profileKey "a")) ∧
    load_credentials [(profileKey "a", "pv"), (loginKey "a", "x")] "a" =
      load_credentials [(profileKey "a", "pv"), (loginKey "a", "y")] "a" :=
  ⟨(C9_kind_isolation.2.2.2.2.1 [(profileKey "a", "pv")] "a" "a" ⟨"u", "pw"⟩).1,
   fun st' h =>
     (C9_kind_isolation.2.2.2.2.2.2.2.1 [(profileKey "a", "pv"), (loginKey "a", "lv")]
       st' "a" "a" h).1,
   C9_kind_isolation.2.2.2.2.2.2.2.2.2.1
     [(profileKey "a", "pv"), (loginKey "a", "x")]
     [(profileKey "a", "pv"), (loginKey "a", "y")] "a" (by decide)⟩

/-- Helper: hexadecimal digits decode back to their value. -/
theorem hexVal_digitChar : ∀ d, d < 16 → hexVal (Nat.digitChar d) = some d := by decide

/-- Helper: decimal digits are digit characters. -/
theorem digitChar_isDigit : ∀ d, d < 10 → (Nat.digitChar d).isDigit = true := by decide

/-- Helper: decimal digits decode back to their value. -/
theorem digitChar_val : ∀ d, d < 10 → (Nat.digitChar d).toNat - 48 = d := by decide

/-- Helper: decoding one escaped character consumes one unit of fuel and
prepends the character to the decoded remainder. -/
theorem unescape_escapeChar (c : Char) (fuel : Nat) (tail : List Char) :
    unescape (fuel + 1) (escapeChar c ++ tail) =
      ((fun p => (c :: p.1, p.2)) <$> unescape fuel tail) := by
  by_cases h1 : c = '"'
  · subst h1; rfl
  by_cases h2 : c = '\\'
  · subst h2; rfl
  by_cases h3 : 32 ≤ c.toNat
  · rw [show escapeChar c = [c] from by simp [escapeChar, h1, h2, h3]]
    show unescape (fuel + 1) (c :: tail) = _
    simp only [unescape, h1, h2, if_false]
  by_cases h4 : c = Char.ofNat 8
  · subst h4; rfl
  by_cases h5 : c = '\t'
  · subst h5; rfl
  by_cases h6 : c = '\n'
  · subst h6; rfl
  by_cases h7 : c = Char.ofNat 12
  · subst h7; rfl
  by_cases h8 : c = '\r'
  · subst h8; rfl
  have hd1 : hexVal (Nat.digitChar (c.toNat / 16)) = some (c.toNat / 16) :=
    hexVal_digitChar _ (by omega)
  have hd2 : hexVal (Nat.digitChar (c.toNat % 16)) = some (c.toNat % 16) :=
    hexVal_digitChar _ (by omega)
  have hchar : ∀ n, n = c.toNat / 16 * 16 + c.toNat % 16 → Char.ofNat n = c := by
    intro n hn
    have harith : n = c.toNat := by omega
    rw [harith, Char.ofNat_toNat]
  rw [show escapeChar c =
      ['\\', 'u', '0', '0', Nat.digitChar (c.toNat / 16), Nat.digitChar (c.toNat % 16)]
    from by simp [escapeChar, h1, h2, h3, h4, h5, h6, h7, h8]]
  show unescape (fuel + 1)
      ('\\' :: 'u' :: '0' :: '0' ::
        Nat.digitChar (c.toNat / 16) :: Nat.digitChar (c.toNat % 16) :: tail) = _
  rw [unescape.eq_def]
  simp only [hd1, hd2]
  simp [hexVal]
  rw [hchar (c.toNat / 16 * 16 + c.toNat % 16) rfl]

/-- Helper: each character escapes to a nonempty sequence. -/
theorem escapeChar_length_pos (c : Char) : 0 < (escapeChar c).length := by
  unfold escapeChar
  split_ifs <;> simp

/-- Helper: escaping never shortens a string. -/
theorem escapeList_length (s : List Char) : s.length ≤ (escapeList s).length := by
  induction s with
  | nil => simp [escapeList]
  | cons c cs ih =>
    show cs.length + 1 ≤ (escapeChar c ++ escapeList cs).length
    rw [List.length_append]
    have := escapeChar_length_pos c
    omega

/-- Helper: decoding an escaped string at its closing quote returns the
original characters and the remainder of the input, for any fuel beyond
the content length. -/
theorem unescape_escapeList (s : List Char) :
    ∀ (fuel : Nat) (rest : List Char), s.length + 1 ≤ fuel →
      unescape fuel (escapeList s ++ '"' :: rest) = some (s, rest) := by
  induction s with
  | nil =>
    intro fuel rest h
    obtain ⟨f, rfl⟩ : ∃ m, fuel = m + 1 := ⟨fuel - 1, by omega⟩
    rfl
  | cons c cs ih =>
    intro fuel rest h
    obtain ⟨f, rfl⟩ : ∃ m, fuel = m + 1 := ⟨fuel - 1, by omega⟩
    show unescape (f + 1) ((escapeChar c ++ escapeList cs) ++ '"' :: rest) = _
    rw [List.append_assoc, unescape_escapeChar, ih f rest (by simp at h; omega)]
    rfl

/-- Helper: folding the decimal digits of `n` onto accumulator `a`
recovers `a` shifted plus `n`. -/
theorem foldl_natCharsGo (fuel : Nat) :
    ∀ n a : Nat, n ≤ fuel →
      List.foldl (fun a c => a * 10 + (c.toNat - 48)) a (natCharsGo fuel n) =
        a * 10 ^ (natCharsGo fuel n).length + n := by
  induction fuel with
  | zero =>
    intro n a h
    have hn : n = 0 := by omega
    subst hn
    simp [natCharsGo]
  | succ fuel ih =>
    intro n a h
    cases n with
    | zero => simp [natCharsGo]
    | succ m =>
      show List.foldl _ a (natCharsGo fuel ((m + 1) / 10) ++ [Nat.digitChar ((m + 1) % 10)]) =
        a * 10 ^ (natCharsGo fuel ((m + 1) / 10) ++ [Nat.digitChar ((m + 1) % 10)]).length +
          (m + 1)
      rw [List.foldl_append]
      have hq : (m + 1) / 10 ≤ fuel := by omega
      rw [ih _ a hq]
      have hr : (Nat.digitChar ((m + 1) % 10)).toNat - 48 = (m + 1) % 10 :=
        digitChar_val _ (Nat.mod_lt _ (by omega))
      simp only [List.foldl_cons, List.foldl_nil, List.length_append, List.length_singleton]
      rw [hr]
      have hqr : (m + 1) / 10 * 10 + (m + 1) % 10 = m + 1 := by omega
      calc (a * 10 ^ (natCharsGo fuel ((m + 1) / 10)).length + (m + 1) / 10) * 10 +
            (m + 1) % 10
          = a * 10 ^ ((natCharsGo fuel ((m + 1) / 10)).length + 1) +
              ((m + 1) / 10 * 10 + (m + 1) % 10) := by rw [pow_succ]; ring
        _ = a * 10 ^ ((natCharsGo fuel ((m + 1) / 10)).length + 1) + (m + 1) := by rw [hqr]

/-- Helper: the decimal rendering of a natural number evaluates back to
it. -/
theorem digitsVal_natChars (n : Nat) : digitsVal (natChars n) = n := by
  unfold natChars digitsVal
  by_cases h : n = 0
  · subst h; rfl
  · rw [if_neg h]
    have := foldl_natCharsGo (n + 1) n 0 (by omega)
    simpa using this

/-- Helper: every character of the digit expansion is a digit. -/
theorem natCharsGo_digits (fuel : Nat) :
    ∀ n : Nat, ∀ c ∈ natCharsGo fuel n, c.isDigit = true := by
  induction fuel with
  | zero => intro n c hc; simp [natCharsGo] at hc
  | succ fuel ih =>
    intro n c hc
    cases n with
    | zero => simp [natCharsGo] at hc
    | succ m =>
      rw [show natCharsGo (fuel + 1) (m + 1) =
          natCharsGo fuel ((m + 1) / 10) ++ [Nat.digitChar ((m + 1) % 10)] from rfl] at hc
      rcases List.mem_append.mp hc with h | h
      · exact ih _ c h
      · rcases List.mem_singleton.mp h with rfl
        exact digitChar_isDigit _ (Nat.mod_lt _ (by omega))

/-- Helper: every character of a decimal rendering is a digit. -/
theorem natChars_digits (n : Nat) : ∀ c ∈ natChars n, c.isDigit = true := by
  intro c hc
  unfold natChars at hc
  by_cases h : n = 0
  · rw [if_pos h] at hc
    rcases List.mem_singleton.mp hc with rfl
    decide
  · rw [if_neg h] at hc
    exact natCharsGo_digits _ _ c hc

/-- Helper: a decimal rendering is never empty. -/
theorem natChars_ne_nil (n : Nat) : natChars n ≠ [] := by
  unfold natChars
  by_cases h : n = 0
  · rw [if_pos h]; simp
  · rw [if_neg h]
    cases n with
    | zero => exact absurd rfl h
    | succ m =>
      show natCharsGo m.succ.succ (m + 1) ≠ []
      simp [natCharsGo]

/-- Helper: `takeWhile` takes exactly a satisfying block when the next
character fails the test. -/
theorem takeWhile_append_block (p : Char → Bool) (xs ys : List Char)
    (hxs : ∀ x ∈ xs, p x = true) (hys : ∀ c ∈ ys.head?, p c = false) :
    (xs ++ ys).takeWhile p = xs := by
  induction xs with
  | nil =>
    cases ys with
    | nil => rfl
    | cons y t => simp [List.takeWhile, hys y rfl]
  | cons x t ih =>
    have hx := hxs x (by simp)
    simp [List.takeWhile, hx, ih (fun z hz => hxs z (by simp [hz]))]

/-- Helper: `dropWhile` drops exactly a satisfying block when the next
character fails the test. -/
theorem dropWhile_append_block (p : Char → Bool) (xs ys : List Char)
    (hxs : ∀ x ∈ xs, p x = true) (hys : ∀ c ∈ ys.head?, p c = false) :
    (xs ++ ys).dropWhile p = ys := by
  induction xs with
  | nil =>
    cases ys with
    | nil => rfl
    | cons y t => simp [List.dropWhile, hys y rfl]
  | cons x t ih =>
    have hx := hxs x (by simp)
    simp [List.dropWhile, hx, ih (fun z hz => hxs z (by simp [hz]))]

/-- Helper: reading a rendered natural number back. -/
theorem parseNatVal_natChars (n : Nat) (rest : List Char)
    (hrest : ∀ c ∈ rest.head?, c.isDigit = false) :
    parseNatVal (natChars n ++ rest) = some (n, rest) := by
  unfold parseNatVal
  rw [takeWhile_append_block _ _ _ (natChars_digits n) hrest,
    dropWhile_append_block _ _ _ (natChars_digits n) hrest]
  have hne : (natChars n).isEmpty = false := by
    cases hnc : natChars n with
    | nil => exact absurd hnc (natChars_ne_nil n)
    | cons c t => rfl
  simp only [hne, Bool.false_eq_true, if_false, digitsVal_natChars]

/-- Helper: reading a rendered integer back. -/
theorem parseIntVal_intChars (i : Int) (rest : List Char)
    (hrest : ∀ c ∈ rest.head?, c.isDigit = false) :
    parseIntVal (intChars i ++ rest) = some (i, rest) := by
  unfold intChars
  by_cases h : i < 0
  · rw [if_pos h]
    show parseIntVal ('-' :: (natChars i.natAbs ++ rest)) = _
    rw [show parseIntVal ('-' :: (natChars i.natAbs ++ rest)) =
        (fun p => (-(p.1 : Int), p.2)) <$> parseNatVal (natChars i.natAbs ++ rest) from by
      simp [parseIntVal]]
    rw [parseNatVal_natChars _ _ hrest]
    show some (-(i.natAbs : Int), rest) = some (i, rest)
    rw [show -(i.natAbs : Int) = i from by omega]
  · rw [if_neg h]
    cases hnc : natChars i.natAbs with
    | nil => exact absurd hnc (natChars_ne_nil _)
    | cons c t =>
      have hc : c.isDigit = true := natChars_digits _ c (by rw [hnc]; simp)
      have hcm : c ≠ '-' := by
        intro hcc
        rw [hcc] at hc
        exact absurd hc (by decide)
      show parseIntVal (c :: (t ++ rest)) = _
      rw [show parseIntVal (c :: (t ++ rest)) =
          (fun p => ((p.1 : Int), p.2)) <$> parseNatVal (c :: (t ++ rest)) from by
        simp [parseIntVal, hcm]]
      rw [show c :: (t ++ rest) = natChars i.natAbs ++ rest from by rw [hnc]; rfl]
      rw [parseNatVal_natChars _ _ hrest]
      show some ((i.natAbs : Int), rest) = some (i, rest)
      rw [show ((i.natAbs : Int) : Int) = i from by omega]

/-- Helper: reading a rendered JSON value back. -/
theorem parseVal_renderVal (v : JVal) (rest : List Char)
    (hrest : ∀ c ∈ rest.head?, c.isDigit = false) :
    parseVal (renderVal v ++ rest) = some (v, rest) := by
  cases v with
  | str s =>
    show parseVal ('"' :: ((escapeList s.data ++ ['"']) ++ rest)) = _
    rw [List.append_assoc]
    show (fun p => (JVal.str ⟨p.1⟩, p.2)) <$>
        unescape (escapeList s.data ++ '"' :: rest).length
          (escapeList s.data ++ '"' :: rest) = _
    have hfuel : s.data.length + 1 ≤ (escapeList s.data ++ '"' :: rest).length := by
      rw [List.length_append]
      have := escapeList_length s.data
      simp only [List.length_cons]
      omega
    rw [unescape_escapeList s.data _ rest hfuel]
    rfl
  | int i =>
    show parseVal (intChars i ++ rest) = _
    cases hnc : intChars i with
    | nil =>
      exfalso
      unfold intChars at hnc
      by_cases h : i < 0
      · rw [if_pos h] at hnc
        cases hnc
      · rw [if_neg h] at hnc
        exact absurd hnc (natChars_ne_nil _)
    | cons c t =>
      have hcq : c ≠ '"' := by
        intro hcc
        unfold intChars at hnc
        by_cases h : i < 0
        · rw [if_pos h] at hnc
          cases hnc
          exact absurd hcc (by decide)
        · rw [if_neg h] at hnc
          have hc : c.isDigit = true := natChars_digits _ c (by rw [hnc]; simp)
          rw [hcc] at hc
          exact absurd hc (by decide)
      show parseVal (c :: (t ++ rest)) = _
      rw [show parseVal (c :: (t ++ rest)) =
          (fun p => (JVal.int p.1, p.2)) <$> parseIntVal (c :: (t ++ rest)) from by
        simp [parseVal, hcq]]
      rw [show c :: (t ++ rest) = intChars i ++ rest from by rw [hnc]; rfl]
      rw [parseIntVal_intChars _ _ hrest]
      rfl

/-- Helper: reading a rendered field back. -/
theorem parseField_renderField (f : String × JVal) (rest : List Char)
    (hrest : ∀ c ∈ rest.head?, c.isDigit = false) :
    parseField (renderField f ++ rest) = some (f, rest) := by
  obtain ⟨name, v⟩ := f
  show parseField ('"' :: ((escapeList name.data ++ '"' :: ':' :: renderVal v) ++ rest)) = _
  rw [List.append_assoc]
  show (match
      unescape (escapeList name.data ++ '"' :: ':' :: (renderVal v ++ rest)).length
        (escapeList name.data ++ '"' :: ':' :: (renderVal v ++ rest)) with
    | none => none
    | some (nm, r1) =>
      match r1 with
      | ':' :: r2 => (fun p => (((⟨nm⟩ : String), p.1), p.2)) <$> parseVal r2
      | _ => none) = some ((name, v), rest)
  have hfuel : name.data.length + 1 ≤
      (escapeList name.data ++ '"' :: ':' :: (renderVal v ++ rest)).length := by
    rw [List.length_append]
    have := escapeList_length name.data
    simp only [List.length_cons]
    omega
  rw [unescape_escapeList name.data _ _ hfuel]
  show (fun p => (((⟨name.data⟩ : String), p.1), p.2)) <$> parseVal (renderVal v ++ rest) =
    some ((name, v), rest)
  rw [parseVal_renderVal v rest hrest]
  rfl

/-- Helper: a rendered field is never empty. -/
theorem renderField_length_pos (f : String × JVal) : 0 < (renderField f).length := by
  obtain ⟨n, v⟩ := f
  show 0 < (('"' :: escapeList n.data) ++ '"' :: ':' :: renderVal v).length
  rw [List.length_append]
  simp

/-- Helper: a rendered field list has at least one character per field. -/
theorem renderFieldsList_length (f : String × JVal) (fs : List (String × JVal)) :
    fs.length + 1 ≤ (renderFieldsList (f :: fs)).length := by
  induction fs generalizing f with
  | nil => simpa using renderField_length_pos f
  | cons g gs ih =>
    show gs.length + 1 + 1 ≤ (renderField f ++ ',' :: renderFieldsList (g :: gs)).length
    rw [List.length_append, List.length_cons]
    have h1 := renderField_length_pos f
    have h2 := ih g
    omega

/-- Helper: reading a rendered nonempty field list back up to the
closing brace, for any fuel beyond the field count. -/
theorem parseFieldsGo_render (fs : List (String × JVal)) :
    ∀ (f : String × JVal) (rest : List Char) (fuel : Nat), fs.length < fuel →
      parseFieldsGo fuel (renderFieldsList (f :: fs) ++ '}' :: rest) = some (f :: fs, rest) := by
  induction fs with
  | nil =>
    intro f rest fuel hfuel
    obtain ⟨f2, rfl⟩ : ∃ m, fuel = m + 1 := ⟨fuel - 1, by omega⟩
    have hpf := parseField_renderField f ('}' :: rest)
      (by intro c hc; cases hc; decide)
    show (match parseField (renderField f ++ '}' :: rest) with
      | none => none
      | some (fld, r) =>
        match r with
        | ',' :: r2 =>
          match parseFieldsGo f2 r2 with
          | some (flds, r3) => some (fld :: flds, r3)
          | none => none
        | '}' :: r2 => some ([fld], r2)
        | _ => none) = some ([f], rest)
    rw [hpf]
    rfl
  | cons g gs ih =>
    intro f rest fuel hfuel
    obtain ⟨f2, rfl⟩ : ∃ m, fuel = m + 1 := ⟨fuel - 1, by omega⟩
    have hassoc : renderFieldsList (f :: g :: gs) ++ '}' :: rest =
        renderField f ++ (',' :: (renderFieldsList (g :: gs) ++ '}' :: rest)) := by
      show (renderField f ++ ',' :: renderFieldsList (g :: gs)) ++ '}' :: rest = _
      rw [List.append_assoc]
      rfl
    rw [hassoc]
    have hpf := parseField_renderField f (',' :: (renderFieldsList (g :: gs) ++ '}' :: rest))
      (by intro c hc; cases hc; decide)
    have hrec := ih g rest f2 (by simp only [List.length_cons] at hfuel; omega)
    show (match parseField (renderField f ++
        (',' :: (renderFieldsList (g :: gs) ++ '}' :: rest))) with
      | none => none
      | some (fld, r) =>
        match r with
        | ',' :: r2 =>
          match parseFieldsGo f2 r2 with
          | some (flds, r3) => some (fld :: flds, r3)
          | none => none
        | '}' :: r2 => some ([fld], r2)
        | _ => none) = some (f :: g :: gs, rest)
    rw [hpf]
    show (match parseFieldsGo f2 (renderFieldsList (g :: gs) ++ '}' :: rest) with
      | some (flds, r3) => some (f :: flds, r3)
      | none => none) = some (f :: g :: gs, rest)
    rw [hrec]

/-- Helper: parsing a rendered nonempty object returns its field list. -/
theorem parseObj_renderObj (fs : List (String × JVal)) (h : fs ≠ []) :
    parseObj (renderObj fs) = some fs := by
  cases fs with
  | nil => exact absurd rfl h
  | cons f gs =>
    show (match parseFieldsGo (renderFieldsList (f :: gs) ++ ['}']).length
        (renderFieldsList (f :: gs) ++ ['}']) with
      | some (flds, []) => some flds
      | _ => none) = some (f :: gs)
    have hlen : gs.length < (renderFieldsList (f :: gs) ++ ['}']).length := by
      rw [List.length_append]
      have := renderFieldsList_length f gs
      simp only [List.length_singleton]
      omega
    have hp := parseFieldsGo_render gs f [] _ hlen
    rw [show renderFieldsList (f :: gs) ++ '}' :: ([] : List Char) =
      renderFieldsList (f :: gs) ++ ['}'] from rfl] at hp
    rw [hp]

/-- Helper: rebuilding `Credentials` from its own field list. -/
theorem buildCredentials_credFields (c : Credentials) :
    buildCredentials (credFields c) = some c := by
  obtain ⟨b, m, uid, atok, aptok, uname⟩ := c
  cases uid <;> cases atok <;> cases aptok <;> cases uname <;> rfl

/-- Helper: full serialization round trip for `Credentials`. -/
theorem deserialize_serialize_credentials (c : Credentials) :
    deserializeCredentials (serializeCredentials c) = some c := by
  unfold deserializeCredentials serializeCredentials
  rw [parseObj_renderObj (credFields c) (by
    obtain ⟨b, m, uid, atok, aptok, uname⟩ := c
    simp [credFields])]
  exact buildCredentials_credFields c

/-- Helper: full serialization round trip for `LoginCredentials`. -/
theorem deserialize_serialize_login (c : LoginCredentials) :
    deserializeLogin (serializeLogin c) = some c := by
  unfold deserializeLogin serializeLogin
  rw [parseObj_renderObj (loginFields c) (by simp [loginFields])]
  rfl

/-- Helper: full serialization round trip for `AppTokenCredentials`. -/
theorem deserialize_serialize_apptoken (c : AppTokenCredentials) :
    deserializeApptoken (serializeApptoken c) = some c := by
  unfold deserializeApptoken serializeApptoken
  rw [parseObj_renderObj (apptokenFields c) (by simp [apptokenFields])]
  rfl

/-- C1: for every profile name and every credential kind, saving a record
and loading it back for the same (kind, name) returns an equal record;
after a successful delete for that (kind, name), loading fails with the
keyring's not-found error.  The OS secret store is the key-value map
`Store` keyed by "<kind>:<profile_name>" under the fixed service name. -/
theorem C1_save_load_delete_roundtrip :
    (∀ (st : Store) (p : String) (c : Credentials),
        load_credentials (save_credentials st p c) p = .ok c) ∧
    (∀ (st st' : Store) (p : String), delete_credentials st p = .ok st' →
        load_credentials st' p =
          .error ("Failed to load credentials from keyring: " ++ keyringNoEntryMsg)) ∧
    (∀ (st : Store) (p : String) (c : LoginCredentials),
        load_login_credentials (save_login_credentials st p c) p = .ok c) ∧
    (∀ (st st' : Store) (p : String), delete_login_credentials st p = .ok st' →
        load_login_credentials st' p =
          .error ("Failed to load login credentials from keyring: " ++ keyringNoEntryMsg)) ∧
    (∀ (st : Store) (p : String) (c : AppTokenCredentials),
        load_apptoken_credentials (save_apptoken_credentials st p c) p = .ok c) ∧
    (∀ (st st' : Store) (p : String), delete_apptoken_credentials st p = .ok st' →
        load_apptoken_credentials st' p =
          .error ("Failed to load app token credentials from keyring: " ++
            keyringNoEntryMsg)) := by
  refine ⟨?_, ?_, ?_, ?_, ?_, ?_⟩
  · intro st p c
    unfold load_credentials save_credentials
    rw [kvGet_kvSet_self]
    show (match deserializeCredentials (serializeCredentials c) with
      | some c2 => (Except.ok c2 : Except String Credentials)
      | none => Except.error "Failed to deserialize credentials") = Except.ok c
    rw [deserialize_serialize_credentials]
  · intro st st' p h
    cases hk : kvGet st (profileKey p) with
    | none => simp [delete_credentials, hk] at h
    | some s =>
      simp only [delete_credentials, hk, Except.ok.injEq] at h
      subst h
      unfold load_credentials
      rw [kvGet_kvDelete_self]
  · intro st p c
    unfold load_login_credentials save_login_credentials
    rw [kvGet_kvSet_self]
    show (match deserializeLogin (serializeLogin c) with
      | some c2 => (Except.ok c2 : Except String LoginCredentials)
      | none => Except.error "Failed to deserialize login credentials") = Except.ok c
    rw [deserialize_serialize_login]
  · intro st st' p h
    cases hk : kvGet st (loginKey p) with
    | none => simp [delete_login_credentials, hk] at h
    | some s =>
      simp only [delete_login_credentials, hk, Except.ok.injEq] at h
      subst h
      unfold load_login_credentials
      rw [kvGet_kvDelete_self]
  · intro st p c
    unfold load_apptoken_credentials save_apptoken_credentials
    rw [kvGet_kvSet_self]
    show (match deserializeApptoken (serializeApptoken c) with
      | some c2 => (Except.ok c2 : Except String AppTokenCredentials)
      | none => Except.error "Failed to deserialize app token credentials") = Except.ok c
    rw [deserialize_serialize_apptoken]
  · intro st st' p h
    cases hk : kvGet st (apptokenKey p) with
    | none => simp [delete_apptoken_credentials, hk] at h
    | some s =>
      simp only [delete_apptoken_credentials, hk, Except.ok.injEq] at h
      subst h
      unfold load_apptoken_credentials
      rw [kvGet_kvDelete_self]

/-- C1 witness: a concrete record with both string escapes and a negative
number round-trips through an empty store, and delete-then-load on a
concrete store fails with the not-found error. -/
theorem C1_save_load_delete_roundtrip_witness :
    load_credentials
        (save_credentials [] "prod"
          ⟨"https://h/x", "credential", some (-7), some "tok\"n", none, none⟩) "prod" =
      .ok ⟨"https://h/x", "credential", some (-7), some "tok\"n", none, none⟩ ∧
    load_login_credentials [] "prod" =
      .error ("Failed to load login credentials from keyring: " ++ keyringNoEntryMsg) ∧
    load_credentials [] "prod" =
      .error ("Failed to load credentials from keyring: " ++ keyringNoEntryMsg) :=
  ⟨C1_save_load_delete_roundtrip.1 [] "prod"
      ⟨"https://h/x", "credential", some (-7), some "tok\"n", none, none⟩,
   C1_save_load_delete_roundtrip.2.2.2.1 [(loginKey "prod", "v")] [] "prod" rfl,
   C1_save_load_delete_roundtrip.2.1 [(profileKey "prod", "v")] [] "prod" rfl⟩

/-- C2 witness: the amended case equations applied at concrete inputs. -/
theorem C2_odata_base_spec_witness :
    odata_base "https://h/a/CoreApi/OData/" = rstripSlashes "https://h/a/CoreApi/OData/" ∧
    odata_base "https://h/a/ODataApi" =
      rstripSlashes (stringReplace "https://h/a/ODataApi" "/ODataApi" "/CoreApi/OData") ∧
    odata_base "https://h/a/odata" = rstripSlashes "https://h/a/odata" ∧
    odata_base "https://h/a" = rstripSlashes "https://h/a" ++ "/CoreApi/OData" :=
  ⟨C2_odata_base_spec.1 "https://h/a/CoreApi/OData/" (by decide),
   C2_odata_base_spec.2.1 "https://h/a/ODataApi" (by decide) (by decide),
   C2_odata_base_spec.2.2.1 "https://h/a/odata" (by decide) (by decide) (by decide),
   C2_odata_base_spec.2.2.2.1 "https://h/a" (by decide) (by decide) (by decide)⟩

end Nimbus
